import Mathlib

/-!
Verification of the cost-projection and log-entry logic of `src/app.py`
(forklift fleet maintenance dashboard).

The file embeds, as pure Lean functions over exact arithmetic (`ℚ` for the
float frequency column, `ℤ` for the integer currency columns):

* the 5-year contract / spot cost projection of tab 1
  (`contract_costs`, `spot_costs`, `risk_section`);
* a raw-cell variant of the spot projection (`rawSpotCosts`) in the
  `Except` monad, which models the `float(...)` / `int(...)` coercions on
  spreadsheet cell values and their `ValueError` on non-numeric strings;
* the maintenance-log submission handler of tab 2 (`entry_form`);
* the specification's "Variant A - per-year accrual" wording
  (`occurrenceCountInYear`, `variantA_series`), for comparison with the code.
-/

namespace Forklift

/-- Projection horizon: `years = [1, 2, 3, 4, 5]` in `app.py`. -/
def years : List ℕ := [1, 2, 3, 4, 5]

/-- One row of the `parts_master` sheet.  `replacementFrequencyYears` is the
column `交換目安(年)` (read through Python `float`, embedded as `ℚ`),
`unitPrice` the column `部品代` and `laborCost` the column `工賃`
(read through Python `int`, embedded as `ℤ`). -/
structure Part where
  partName : String
  replacementFrequencyYears : ℚ
  unitPrice : ℤ
  laborCost : ℤ
  deriving DecidableEq

/-- One row of the `risk_cases` sheet: `故障事例`, `想定修理費`, `内容`. -/
structure RiskCase where
  failureName : String
  estimatedRepairCost : ℤ
  downtimeLossDescription : String
  deriving DecidableEq

/-- Exact-arithmetic reading of the float test `y % freq == 0` in the inner
loop: the year `y` is an integer multiple of the frequency `freq`. -/
def isIntegerMultiple (y : ℕ) (freq : ℚ) : Prop :=
  ∃ k : ℤ, (y : ℚ) = k * freq

instance (y : ℕ) (freq : ℚ) : Decidable (isIntegerMultiple y freq) :=
  decidable_of_iff ((freq = 0 ∧ y = 0) ∨ (freq ≠ 0 ∧ ((y : ℚ) / freq).den = 1)) (by
    constructor
    · rintro (⟨h0, hy⟩ | ⟨h0, hden⟩)
      · exact ⟨0, by simp [h0, hy]⟩
      · refine ⟨((y : ℚ) / freq).num, ?_⟩
        have hq : ((((y : ℚ) / freq).num : ℤ) : ℚ) = (y : ℚ) / freq :=
          (Rat.den_eq_one_iff _).mp hden
        rw [hq, div_mul_cancel₀ _ h0]
    · rintro ⟨k, hk⟩
      by_cases h0 : freq = 0
      · subst h0
        left
        refine ⟨rfl, ?_⟩
        rw [mul_zero] at hk
        exact_mod_cast hk
      · right
        refine ⟨h0, ?_⟩
        have hdiv : (y : ℚ) / freq = (k : ℚ) := by
          rw [hk, mul_div_assoc, div_self h0, mul_one]
        rw [hdiv]
        exact Rat.den_intCast k)

/-- Python `int(...)` applied to a (rational reading of a) float: truncation
toward zero. -/
def ratTrunc (q : ℚ) : ℤ := if q < 0 then -⌊-q⌋ else ⌊q⌋

/-- The guard of the inner loop of the spot projection:
`freq > 0 and (y % freq == 0 or (freq < 1 and y >= 1))`. -/
def isDue (y : ℕ) (freq : ℚ) : Prop :=
  0 < freq ∧ (isIntegerMultiple y freq ∨ (freq < 1 ∧ 1 ≤ y))

instance (y : ℕ) (freq : ℚ) : Decidable (isDue y freq) := by
  unfold isDue
  infer_instance

/-- The replacement count of a due part: `count = 1 if freq >= 1 else int(1/freq)`. -/
def dueCount (freq : ℚ) : ℤ := if 1 ≤ freq then 1 else ratTrunc (1 / freq)

/-- Contribution of one part row to one year of the spot projection:
the body `year_cost += cost_unit * count` runs exactly when the guard holds,
with `cost_unit = int(part["部品代"]) + int(part["工賃"])`. -/
def part_year_cost (y : ℕ) (p : Part) : ℤ :=
  if isDue y p.replacementFrequencyYears then
    (p.unitPrice + p.laborCost) * dueCount p.replacementFrequencyYears
  else 0

/-- Total spot cost accrued in year `y`: the inner `for index, part in
df_parts.iterrows()` loop. -/
def year_cost (parts : List Part) (y : ℕ) : ℤ :=
  (parts.map (part_year_cost y)).sum

/-- The outer loop `for y in years: cumulative_spot += year_cost;
spot_costs.append(cumulative_spot)`, generalised over the per-year cost
function. -/
def accrue (f : ℕ → ℤ) : List ℕ → ℤ → List ℤ
  | [], _ => []
  | y :: ys, cumulative_spot =>
    (cumulative_spot + f y) :: accrue f ys (cumulative_spot + f y)

/-- The cumulative spot-repair cost series `spot_costs` of `app.py`. -/
def spot_costs (parts : List Part) : List ℤ :=
  accrue (year_cost parts) years 0

/-- Total spot cost over the whole horizon (the specification's `spotTotal`). -/
def spotTotal (parts : List Part) : ℤ :=
  (years.map (year_cost parts)).sum

/-- `yearly_contract_cost = monthly_cost * 12`. -/
def yearly_contract_cost (monthly_cost : ℤ) : ℤ := monthly_cost * 12

/-- `contract_costs = [yearly_contract_cost * y for y in years]`. -/
def contract_costs (monthly_cost : ℤ) : List ℤ :=
  years.map (fun y => yearly_contract_cost monthly_cost * (y : ℤ))

/-- Cumulative contract cost at the end of the horizon (the specification's
`contractTotal`): the last entry of `contract_costs`. -/
def contractTotal (monthly_cost : ℤ) : ℤ :=
  (contract_costs monthly_cost).getLastD 0

/-- `max_risk_cost = df_risk["想定修理費"].max()`: maximum of the estimated
repair costs (only used under the `not df_risk.empty` guard; the `[]` branch
is arbitrary). -/
def max_risk_cost : List RiskCase → ℤ
  | [] => 0
  | r :: rs => rs.foldl (fun m x => max m x.estimatedRepairCost) r.estimatedRepairCost

/-- `risk_name = df_risk.loc[df_risk["想定修理費"].idxmax(), "故障事例"]`:
pandas `idxmax` selects the first row attaining the maximum. -/
def risk_name (rs : List RiskCase) : String :=
  match rs.find? (fun r => r.estimatedRepairCost == max_risk_cost rs) with
  | some r => r.failureName
  | none => ""

/-- `risk_data = [0, 0, 0, 0, max_risk_cost]`: the risk overlay series. -/
def risk_data (max_cost : ℤ) : List ℤ := [0, 0, 0, 0, max_cost]

/-- The `if not df_risk.empty:` block: with a non-empty risk table the chart
gains a trace with values `risk_data` (stacked on `spot_costs` through
`base=spot_costs`) and the name of the costliest failure; with an empty risk
table no risk trace is added at all. -/
def risk_section (df_risk : List RiskCase) : Option (List ℤ × String) :=
  if df_risk.isEmpty then none
  else some (risk_data (max_risk_cost df_risk), risk_name df_risk)

/-- The y-values of the risk trace actually added to the chart
(empty when the risk table is empty). -/
def riskSeries (rs : List RiskCase) : List ℤ :=
  match risk_section rs with
  | some (d, _) => d
  | none => []

/-- Total risk cost added to the spot side over the whole horizon. -/
def riskAddOn (rs : List RiskCase) : ℤ := (riskSeries rs).sum

/-- Everything the projection computes for display. -/
structure ProjectionOutput where
  contractSeries : List ℤ
  spotSeries : List ℤ
  riskOverlay : Option (List ℤ × String)
  deriving DecidableEq

/-- The whole calculation of tab 1 (lines 106-167 of `app.py`) as one pure
function of the selected plan's monthly cost, the parts table and the risk
table. -/
def runProjection (monthly_cost : ℤ) (parts : List Part) (risks : List RiskCase) :
    ProjectionOutput :=
  ⟨contract_costs monthly_cost, spot_costs parts, risk_section risks⟩

/-- The complete numeric output of the calculation: the y-values of the three
chart traces, in the order the code builds them. -/
def calcNumericOutputs (monthly_cost : ℤ) (parts : List Part) (rs : List RiskCase) :
    List ℤ :=
  contract_costs monthly_cost ++ spot_costs parts ++ riskSeries rs

/-- Modelled from the spec: `difference = (spotTotal + riskAddOn) - contractTotal`,
the "comparison output" that section 4.1 ascribes to the calculator.
`src/app.py` computes no such value; this definition exists to be compared
with the outputs the code does produce. -/
def difference (monthly_cost : ℤ) (parts : List Part) (rs : List RiskCase) : ℤ :=
  spotTotal parts + riskAddOn rs - contractTotal monthly_cost

/-- Modelled from the spec (section 4.1, Variant A): "the part is due for
replacement in year `y` if `y` is an integer multiple of its frequency (when
frequency ≥ 1), or, when frequency < 1 (sub-annual), it recurs
`floor(1/frequency)` times within that year"; otherwise it does not occur. -/
def occurrenceCountInYear (y : ℕ) (freq : ℚ) : ℕ :=
  if 1 ≤ freq ∧ isIntegerMultiple y freq then 1
  else if freq < 1 then ⌊1 / freq⌋.toNat
  else 0

/-- Modelled from the spec: "Per-year cost for that part =
`(unitPrice + laborCost) * occurrenceCountInYear`". -/
def variantA_part_cost (y : ℕ) (p : Part) : ℤ :=
  (p.unitPrice + p.laborCost) * (occurrenceCountInYear y p.replacementFrequencyYears : ℤ)

/-- Modelled from the spec: per-year total over all parts. -/
def variantA_year_cost (parts : List Part) (y : ℕ) : ℤ :=
  (parts.map (variantA_part_cost y)).sum

/-- Modelled from the spec: "Running total accumulates year over year,
producing a cumulative series of length `horizonYears`". -/
def variantA_series (parts : List Part) : List ℤ :=
  accrue (variantA_year_cost parts) years 0

/-- A spreadsheet cell as delivered by the client's `get_all_records`:
numeric cells arrive as numbers (`num`), anything else arrives as its raw
string (`text`); an empty (missing) cell arrives as the empty string `""`. -/
inductive CellValue where
  | num (q : ℚ)
  | text (s : String)
  deriving DecidableEq

/-- The typed error raised by `float(...)` / `int(...)` on a non-numeric
string (Python `ValueError`). -/
inductive ProjError where
  | malformedNumeric (s : String)
  deriving DecidableEq

/-- Python `float(cell)`: numbers pass through, non-numeric strings raise. -/
def pyFloat : CellValue → Except ProjError ℚ
  | .num q => .ok q
  | .text s => .error (.malformedNumeric s)

/-- Python `int(cell)`: numbers truncate toward zero, non-numeric strings raise. -/
def pyInt : CellValue → Except ProjError ℤ
  | .num q => .ok (ratTrunc q)
  | .text s => .error (.malformedNumeric s)

/-- One raw row of `parts_master`: the three numeric columns before coercion. -/
structure RawPart where
  partName : String
  freqCell : CellValue
  priceCell : CellValue
  laborCell : CellValue
  deriving DecidableEq

/-- Whether a cell is numeric. -/
def CellValue.isNumCell : CellValue → Bool
  | .num _ => true
  | .text _ => false

/-- Numeric value of a cell under `float` (meaningful when `isNumCell`). -/
def CellValue.asRat : CellValue → ℚ
  | .num q => q
  | .text _ => 0

/-- Numeric value of a cell under `int` (meaningful when `isNumCell`). -/
def CellValue.asInt : CellValue → ℤ
  | .num q => ratTrunc q
  | .text _ => 0

/-- A raw row whose three numeric columns are all numeric. -/
def RawWellFormed (p : RawPart) : Prop :=
  p.freqCell.isNumCell = true ∧ p.priceCell.isNumCell = true ∧ p.laborCell.isNumCell = true

/-- The typed row obtained from a well-formed raw row. -/
def toPart (p : RawPart) : Part :=
  ⟨p.partName, p.freqCell.asRat, p.priceCell.asInt, p.laborCell.asInt⟩

/-- The loop body over raw cells, coercions included, in evaluation order:
`freq = float(part["交換目安(年)"])` runs for every row of every year; the
`int` coercions of `部品代` and `工賃` run only when the guard holds. -/
def rawPartYearCost (y : ℕ) (p : RawPart) : Except ProjError ℤ :=
  match pyFloat p.freqCell with
  | .error e => .error e
  | .ok freq =>
    if isDue y freq then
      match pyInt p.priceCell with
      | .error e => .error e
      | .ok price =>
        match pyInt p.laborCell with
        | .error e => .error e
        | .ok labor => .ok ((price + labor) * dueCount freq)
    else .ok 0

/-- The inner loop over raw rows; the first coercion failure aborts it. -/
def rawYearCost (y : ℕ) : List RawPart → Except ProjError ℤ
  | [] => .ok 0
  | p :: ps =>
    match rawPartYearCost y p with
    | .error e => .error e
    | .ok c =>
      match rawYearCost y ps with
      | .error e => .error e
      | .ok rest => .ok (c + rest)

/-- The outer loop over raw rows. -/
def rawAccrue (parts : List RawPart) : List ℕ → ℤ → Except ProjError (List ℤ)
  | [], _ => .ok []
  | y :: ys, cumulative =>
    match rawYearCost y parts with
    | .error e => .error e
    | .ok yc =>
      match rawAccrue parts ys (cumulative + yc) with
      | .error e => .error e
      | .ok rest => .ok ((cumulative + yc) :: rest)

/-- The spot projection over raw cell values: either the cumulative series,
or the first malformed-numeric error encountered. -/
def rawSpotCosts (parts : List RawPart) : Except ProjError (List ℤ) :=
  rawAccrue parts years 0

/-- One field of the appended log record: the Python list
`[v_id, str(date), cost, hours, category, note]` mixes strings and integers. -/
inductive Field where
  | s (v : String)
  | i (v : ℤ)
  deriving DecidableEq

/-- The fixed 6-field ordered record handed to `add_log_data`. -/
def entryRecord (v_id dateStr : String) (cost hours : ℤ) (category note : String) :
    List Field :=
  [.s v_id, .s dateStr, .i cost, .i hours, .s category, .s note]

/-- Observable effect of one submission of the maintenance-log form. -/
structure SubmitOutcome where
  appendedRecord : Option (List Field)
  cacheCleared : Bool
  errorMessage : Option String
  deriving DecidableEq

/-- The submission handler of the `entry_form` block (lines 219-226 of
`app.py`): `if v_id and cost >= 0:` appends the record and clears the cached
reads, `else:` shows the vehicle-id error.  The truthiness of the string
`v_id` is `v_id ≠ ""`. -/
def entry_form (v_id dateStr : String) (cost hours : ℤ) (category note : String) :
    SubmitOutcome :=
  if v_id ≠ "" ∧ 0 ≤ cost then
    ⟨some (entryRecord v_id dateStr cost hours category note), true, none⟩
  else
    ⟨none, false, some "車両IDを入力してください"⟩

/-! ## General lemmas about the accumulation loop -/

lemma accrue_congr (f g : ℕ → ℤ) :
    ∀ (l : List ℕ) (c : ℤ), (∀ y ∈ l, f y = g y) → accrue f l c = accrue g l c := by
  intro l
  induction l with
  | nil => intro c _; rfl
  | cons y ys ih =>
    intro c h
    simp only [accrue]
    rw [h y (List.mem_cons_self y ys), ih (c + g y) (fun z hz => h z (List.mem_cons_of_mem y hz))]

lemma accrue_getLastD (f : ℕ → ℤ) :
    ∀ (l : List ℕ) (c d : ℤ), l ≠ [] → (accrue f l c).getLastD d = c + (l.map f).sum := by
  intro l
  induction l with
  | nil => intro c d h; exact absurd rfl h
  | cons y ys ih =>
    intro c d _
    by_cases hys : ys = []
    · subst hys
      simp [accrue]
    · simp only [accrue, List.getLastD_cons]
      rw [ih (c + f y) (c + f y) hys]
      simp only [List.map_cons, List.sum_cons]
      ring

lemma spot_costs_getLastD (parts : List Part) :
    (spot_costs parts).getLastD 0 = spotTotal parts := by
  unfold spot_costs spotTotal
  rw [accrue_getLastD (year_cost parts) years 0 0 (by simp [years])]
  ring

lemma map_sum_congr {α : Type} (l : List α) (F G : α → ℤ) (h : ∀ a ∈ l, F a = G a) :
    (l.map F).sum = (l.map G).sum := by
  induction l with
  | nil => rfl
  | cons a l ih =>
    simp only [List.map_cons, List.sum_cons]
    rw [h a (List.mem_cons_self a l), ih (fun b hb => h b (List.mem_cons_of_mem a hb))]

/-! ## Lemmas about a single part's yearly contribution -/

lemma ratTrunc_of_nonneg {q : ℚ} (h : 0 ≤ q) : ratTrunc q = ⌊q⌋ := by
  unfold ratTrunc
  rw [if_neg (not_lt.mpr h)]

lemma dueCount_nonneg {freq : ℚ} (h : 0 < freq) : 0 ≤ dueCount freq := by
  unfold dueCount
  by_cases h1 : 1 ≤ freq
  · rw [if_pos h1]; exact one_pos.le
  · rw [if_neg h1, ratTrunc_of_nonneg (by positivity)]
    exact Int.floor_nonneg.mpr (by positivity)

lemma part_year_cost_nonneg (y : ℕ) (p : Part)
    (hu : 0 ≤ p.unitPrice) (hl : 0 ≤ p.laborCost) : 0 ≤ part_year_cost y p := by
  unfold part_year_cost
  by_cases hd : isDue y p.replacementFrequencyYears
  · rw [if_pos hd]
    exact mul_nonneg (add_nonneg hu hl) (dueCount_nonneg hd.1)
  · rw [if_neg hd]

lemma part_year_cost_zero_price (y : ℕ) (p : Part)
    (hu : p.unitPrice = 0) (hl : p.laborCost = 0) : part_year_cost y p = 0 := by
  unfold part_year_cost
  by_cases hd : isDue y p.replacementFrequencyYears
  · rw [if_pos hd, hu, hl]; ring
  · rw [if_neg hd]

lemma part_year_cost_nonpos_freq (y : ℕ) (p : Part)
    (h : p.replacementFrequencyYears ≤ 0) : part_year_cost y p = 0 := by
  unfold part_year_cost
  rw [if_neg]
  rintro ⟨hpos, -⟩
  exact absurd hpos (not_lt.mpr h)

lemma year_cost_insert (pre post : List Part) (p : Part) (y : ℕ) :
    year_cost (pre ++ p :: post) y = year_cost (pre ++ post) y + part_year_cost y p := by
  unfold year_cost
  simp only [List.map_append, List.map_cons, List.sum_append, List.sum_cons]
  ring

lemma part_year_cost_eq_variantA (y : ℕ) (p : Part) (hy : 1 ≤ y)
    (hf : 0 < p.replacementFrequencyYears) :
    part_year_cost y p = variantA_part_cost y p := by
  unfold part_year_cost variantA_part_cost occurrenceCountInYear dueCount isDue
  by_cases h1 : 1 ≤ p.replacementFrequencyYears
  · by_cases hm : isIntegerMultiple y p.replacementFrequencyYears
    · have hd : 0 < p.replacementFrequencyYears ∧
          (isIntegerMultiple y p.replacementFrequencyYears ∨
            (p.replacementFrequencyYears < 1 ∧ 1 ≤ y)) := ⟨hf, Or.inl hm⟩
      have hcm : 1 ≤ p.replacementFrequencyYears ∧
          isIntegerMultiple y p.replacementFrequencyYears := ⟨h1, hm⟩
      rw [if_pos hd, if_pos hcm, if_pos h1]
      simp
    · have hd : ¬(0 < p.replacementFrequencyYears ∧
          (isIntegerMultiple y p.replacementFrequencyYears ∨
            (p.replacementFrequencyYears < 1 ∧ 1 ≤ y))) := by
        rintro ⟨-, hm2 | ⟨hlt, -⟩⟩
        · exact hm hm2
        · exact absurd h1 (not_le.mpr hlt)
      have hcm : ¬(1 ≤ p.replacementFrequencyYears ∧
          isIntegerMultiple y p.replacementFrequencyYears) := fun hc => hm hc.2
      have hl1 : ¬(p.replacementFrequencyYears < 1) := not_lt.mpr h1
      rw [if_neg hd, if_neg hcm, if_neg hl1]
      simp
  · have hlt : p.replacementFrequencyYears < 1 := not_le.mp h1
    have hd : 0 < p.replacementFrequencyYears ∧
        (isIntegerMultiple y p.replacementFrequencyYears ∨
          (p.replacementFrequencyYears < 1 ∧ 1 ≤ y)) := ⟨hf, Or.inr ⟨hlt, hy⟩⟩
    have hcm : ¬(1 ≤ p.replacementFrequencyYears ∧
        isIntegerMultiple y p.replacementFrequencyYears) := fun hc => h1 hc.1
    rw [if_pos hd, if_neg hcm, if_pos hlt, if_neg h1]
    congr 1
    have hpos : (0 : ℚ) ≤ 1 / p.replacementFrequencyYears := by positivity
    rw [ratTrunc_of_nonneg hpos, Int.toNat_of_nonneg (Int.floor_nonneg.mpr hpos)]

lemma year_cost_eq_variantA (parts : List Part)
    (h : ∀ p ∈ parts, 0 < p.replacementFrequencyYears) (y : ℕ) (hy : 1 ≤ y) :
    year_cost parts y = variantA_year_cost parts y :=
  map_sum_congr parts _ _ (fun p hp => part_year_cost_eq_variantA y p hy (h p hp))

/-! ## Lemmas about the maximum over the risk table -/

lemma le_foldl_max_init (a : ℤ) (l : List RiskCase) :
    a ≤ l.foldl (fun m x => max m x.estimatedRepairCost) a := by
  induction l generalizing a with
  | nil => exact le_refl a
  | cons x xs ih =>
    exact le_trans (le_max_left a x.estimatedRepairCost) (ih _)

lemma mem_le_foldl_max (l : List RiskCase) (r : RiskCase) :
    r ∈ l → ∀ a : ℤ,
      r.estimatedRepairCost ≤ l.foldl (fun m x => max m x.estimatedRepairCost) a := by
  induction l with
  | nil => intro hr; cases hr
  | cons x xs ih =>
    intro hr a
    simp only [List.foldl_cons]
    rcases List.mem_cons.mp hr with h | h
    · subst h
      exact le_trans (le_max_right a r.estimatedRepairCost) (le_foldl_max_init _ xs)
    · exact ih h (max a x.estimatedRepairCost)

lemma foldl_max_attained (a : ℤ) (l : List RiskCase) :
    l.foldl (fun m x => max m x.estimatedRepairCost) a = a ∨
      ∃ r ∈ l, l.foldl (fun m x => max m x.estimatedRepairCost) a = r.estimatedRepairCost := by
  induction l generalizing a with
  | nil => exact Or.inl rfl
  | cons x xs ih =>
    rcases ih (max a x.estimatedRepairCost) with h | ⟨r, hr, h⟩
    · rcases max_choice a x.estimatedRepairCost with hm | hm
      · exact Or.inl (by rw [List.foldl_cons, h, hm])
      · exact Or.inr ⟨x, List.mem_cons_self x xs, by rw [List.foldl_cons, h, hm]⟩
    · exact Or.inr ⟨r, List.mem_cons_of_mem x hr, by rw [List.foldl_cons, h]⟩

lemma max_risk_cost_le (rs : List RiskCase) (r : RiskCase) (hr : r ∈ rs) :
    r.estimatedRepairCost ≤ max_risk_cost rs := by
  cases rs with
  | nil => cases hr
  | cons x xs =>
    rcases List.mem_cons.mp hr with h | h
    · subst h
      exact le_foldl_max_init _ xs
    · exact mem_le_foldl_max xs r h x.estimatedRepairCost

lemma max_risk_cost_attained (rs : List RiskCase) (h : rs ≠ []) :
    ∃ r ∈ rs, r.estimatedRepairCost = max_risk_cost rs := by
  cases rs with
  | nil => exact absurd rfl h
  | cons x xs =>
    rcases foldl_max_attained x.estimatedRepairCost xs with h | ⟨r, hr, hfold⟩
    · exact ⟨x, List.mem_cons_self x xs, by rw [max_risk_cost, h]⟩
    · exact ⟨r, List.mem_cons_of_mem x hr, by rw [max_risk_cost, hfold]⟩

lemma risk_name_attains (rs : List RiskCase) (h : rs ≠ []) :
    ∃ r ∈ rs, r.estimatedRepairCost = max_risk_cost rs ∧ risk_name rs = r.failureName := by
  obtain ⟨r0, hr0, hc0⟩ := max_risk_cost_attained rs h
  have hsome : (rs.find? (fun r => r.estimatedRepairCost == max_risk_cost rs)).isSome := by
    rw [List.find?_isSome]
    exact ⟨r0, hr0, by simp [hc0]⟩
  obtain ⟨r, hr⟩ := Option.isSome_iff_exists.mp hsome
  refine ⟨r, List.mem_of_find?_eq_some hr, ?_, ?_⟩
  · have := List.find?_some hr
    simpa using this
  · unfold risk_name
    rw [hr]

/-! ## Lemmas about the raw-cell projection -/

lemma pyFloat_wf (c : CellValue) (h : c.isNumCell = true) : pyFloat c = .ok c.asRat := by
  cases c with
  | num q => rfl
  | text s => simp [CellValue.isNumCell] at h

lemma pyInt_wf (c : CellValue) (h : c.isNumCell = true) : pyInt c = .ok c.asInt := by
  cases c with
  | num q => rfl
  | text s => simp [CellValue.isNumCell] at h

lemma rawPartYearCost_wf (y : ℕ) (p : RawPart) (h : RawWellFormed p) :
    rawPartYearCost y p = .ok (part_year_cost y (toPart p)) := by
  obtain ⟨h1, h2, h3⟩ := h
  unfold rawPartYearCost part_year_cost toPart
  rw [pyFloat_wf _ h1, pyInt_wf _ h2, pyInt_wf _ h3]
  by_cases hd : isDue y p.freqCell.asRat
  · simp [if_pos hd]
  · simp [if_neg hd]

lemma rawYearCost_wf (y : ℕ) :
    ∀ ps : List RawPart, (∀ p ∈ ps, RawWellFormed p) →
      rawYearCost y ps = .ok (year_cost (ps.map toPart) y) := by
  intro ps
  induction ps with
  | nil =>
    intro _
    simp [rawYearCost, year_cost]
  | cons p ps ih =>
    intro h
    rw [rawYearCost, rawPartYearCost_wf y p (h p (List.mem_cons_self p ps)),
      ih (fun q hq => h q (List.mem_cons_of_mem p hq))]
    simp [year_cost]

lemma rawAccrue_wf (parts : List RawPart) (h : ∀ p ∈ parts, RawWellFormed p) :
    ∀ (ys : List ℕ) (c : ℤ),
      rawAccrue parts ys c = .ok (accrue (year_cost (parts.map toPart)) ys c) := by
  intro ys
  induction ys with
  | nil => intro c; rfl
  | cons y ys ih =>
    intro c
    rw [rawAccrue, rawYearCost_wf y parts h]
    simp [accrue, ih]

lemma rawPartYearCost_text (y : ℕ) (p : RawPart) (s : String) (h : p.freqCell = .text s) :
    rawPartYearCost y p = .error (.malformedNumeric s) := by
  unfold rawPartYearCost
  rw [h]
  rfl

lemma rawYearCost_err (y : ℕ) :
    ∀ (pre post : List RawPart) (p : RawPart) (s : String), p.freqCell = .text s →
      ∃ e, rawYearCost y (pre ++ p :: post) = .error e := by
  intro pre
  induction pre with
  | nil =>
    intro post p s h
    refine ⟨.malformedNumeric s, ?_⟩
    rw [List.nil_append, rawYearCost, rawPartYearCost_text y p s h]
  | cons q pre ih =>
    intro post p s h
    rw [List.cons_append, rawYearCost]
    cases hq : rawPartYearCost y q with
    | error e => exact ⟨e, rfl⟩
    | ok c =>
      obtain ⟨e, he⟩ := ih post p s h
      refine ⟨e, ?_⟩
      rw [he]

lemma rawSpotCosts_err (pre post : List RawPart) (p : RawPart) (s : String)
    (h : p.freqCell = .text s) :
    ∃ e, rawSpotCosts (pre ++ p :: post) = .error e := by
  obtain ⟨e, he⟩ := rawYearCost_err 1 pre post p s h
  refine ⟨e, ?_⟩
  unfold rawSpotCosts years
  rw [rawAccrue, he]

lemma rawPartYearCost_not_due (y : ℕ) (p : RawPart) (q : ℚ)
    (hq : p.freqCell = .num q) (hnd : ¬ isDue y q) : rawPartYearCost y p = .ok 0 := by
  unfold rawPartYearCost
  rw [hq]
  simp [pyFloat, hnd]

lemma rawPartYearCost_due_badPrice (y : ℕ) (p : RawPart) (q : ℚ) (s : String)
    (hq : p.freqCell = .num q) (hd : isDue y q) (hs : p.priceCell = .text s) :
    rawPartYearCost y p = .error (.malformedNumeric s) := by
  unfold rawPartYearCost
  rw [hq, hs]
  simp [pyFloat, pyInt, hd]

lemma rawPartYearCost_due_badLabor (y : ℕ) (p : RawPart) (q : ℚ) (s : String)
    (hq : p.freqCell = .num q) (hd : isDue y q)
    (hnum : p.priceCell.isNumCell = true) (hs : p.laborCell = .text s) :
    rawPartYearCost y p = .error (.malformedNumeric s) := by
  unfold rawPartYearCost
  rw [hq, hs, pyInt_wf _ hnum]
  simp [pyFloat, pyInt, hd]

lemma rawYearCost_err_mem (y : ℕ) :
    ∀ (pre post : List RawPart) (p : RawPart),
      (∃ e, rawPartYearCost y p = .error e) →
      ∃ e, rawYearCost y (pre ++ p :: post) = .error e := by
  intro pre
  induction pre with
  | nil =>
    intro post p ⟨e, he⟩
    refine ⟨e, ?_⟩
    rw [List.nil_append, rawYearCost, he]
  | cons q pre ih =>
    intro post p hp
    rw [List.cons_append, rawYearCost]
    cases hq : rawPartYearCost y q with
    | error e => exact ⟨e, rfl⟩
    | ok c =>
      obtain ⟨e, he⟩ := ih post p hp
      refine ⟨e, ?_⟩
      rw [he]

lemma rawAccrue_err (parts : List RawPart) :
    ∀ (ys : List ℕ) (y : ℕ), y ∈ ys →
      (∃ e, rawYearCost y parts = .error e) →
      ∀ c : ℤ, ∃ e, rawAccrue parts ys c = .error e := by
  intro ys
  induction ys with
  | nil => intro y hy; cases hy
  | cons y0 ys ih =>
    intro y hy herr c
    cases hyc : rawYearCost y0 parts with
    | error e =>
      refine ⟨e, ?_⟩
      rw [rawAccrue, hyc]
    | ok yc =>
      rcases List.mem_cons.mp hy with h | h
      · subst h
        obtain ⟨e, he⟩ := herr
        rw [hyc] at he
        cases he
      · obtain ⟨e, he⟩ := ih y h herr (c + yc)
        refine ⟨e, ?_⟩
        rw [rawAccrue, hyc]
        simp [he]

lemma rawAccrue_ok_of (parts : List RawPart) (f : ℕ → ℤ) :
    ∀ (ys : List ℕ) (c : ℤ), (∀ y ∈ ys, rawYearCost y parts = .ok (f y)) →
      rawAccrue parts ys c = .ok (accrue f ys c) := by
  intro ys
  induction ys with
  | nil => intro c _; rfl
  | cons y ys ih =>
    intro c h
    rw [rawAccrue, h y (List.mem_cons_self y ys)]
    simp [accrue, ih _ (fun z hz => h z (List.mem_cons_of_mem y hz))]

lemma rawYearCost_skip (y : ℕ) (p : RawPart) (hp : rawPartYearCost y p = .ok 0) :
    ∀ (pre post : List RawPart), (∀ r ∈ pre ++ post, RawWellFormed r) →
      rawYearCost y (pre ++ p :: post) = .ok (year_cost ((pre ++ post).map toPart) y) := by
  intro pre
  induction pre with
  | nil =>
    intro post h
    rw [List.nil_append, rawYearCost, hp,
      rawYearCost_wf y post (fun r hr => h r (by simpa using hr))]
    simp
  | cons r pre ih =>
    intro post h
    have hr : RawWellFormed r := h r (by simp)
    rw [List.cons_append, rawYearCost, rawPartYearCost_wf y r hr,
      ih post (fun x hx => h x (List.mem_cons_of_mem r hx))]
    simp [year_cost]

/-! ## Claim theorems -/

/-- C1: for every parts table whose rows all have positive replacement
frequency and non-negative prices, the spot projection follows the
specification's Variant A per-year accrual: the series equals the Variant A
cumulative series, has length 5, and its final element is `spotTotal`. -/
theorem c1_spot_follows_variantA (parts : List Part)
    (h : ∀ p ∈ parts,
      0 < p.replacementFrequencyYears ∧ 0 ≤ p.unitPrice ∧ 0 ≤ p.laborCost) :
    spot_costs parts = variantA_series parts ∧
    (spot_costs parts).length = 5 ∧
    (spot_costs parts).getLastD 0 = spotTotal parts := by
  refine ⟨?_, ?_, spot_costs_getLastD parts⟩
  · unfold spot_costs variantA_series
    apply accrue_congr
    intro y hy
    have hy1 : 1 ≤ y := by
      simp [years] at hy
      omega
    exact year_cost_eq_variantA parts (fun p hp => (h p hp).1) y hy1
  · simp [spot_costs, years, accrue]

/-- Witness for C1 at a concrete two-row table (an annual part and a
half-yearly part). -/
theorem c1_witness :
    spot_costs [⟨"battery", 1, 10000, 5000⟩, ⟨"oil", 1/2, 3000, 1000⟩]
      = variantA_series [⟨"battery", 1, 10000, 5000⟩, ⟨"oil", 1/2, 3000, 1000⟩] :=
  (c1_spot_follows_variantA
    [⟨"battery", 1, 10000, 5000⟩, ⟨"oil", 1/2, 3000, 1000⟩] (by simp)).1

/-- C2: for every non-negative monthly cost, the cumulative contract cost over
the fixed 5-year horizon is `monthlyCost * 12 * 5 = monthlyCost * 60`, and the
contract series of the projection never depends on the parts or risk inputs
(hence not on the spot-side accrual variant). -/
theorem c2_contract_total (m : ℤ) (_hm : 0 ≤ m) :
    contractTotal m = m * 12 * 5 ∧ contractTotal m = m * 60 ∧
    ∀ (parts : List Part) (risks : List RiskCase),
      (runProjection m parts risks).contractSeries = contract_costs m := by
  refine ⟨?_, ?_, fun _ _ => rfl⟩
  · simp [contractTotal, contract_costs, yearly_contract_cost, years,
      List.getLastD_cons]
  · simp [contractTotal, contract_costs, yearly_contract_cost, years,
      List.getLastD_cons]
    ring

/-- Witness for C2 at the spec's Scenario 1: monthly cost 50000 gives a
contract total of 3,000,000. -/
theorem c2_witness : contractTotal 50000 = 50000 * 60 ∧ (50000 : ℤ) * 60 = 3000000 :=
  ⟨(c2_contract_total 50000 (by decide)).2.1, by decide⟩

/-- C3 counterexample: a row whose frequency cell is missing arrives as the
empty string, and the projection raises a malformed-numeric error on it
instead of skipping it with zero contribution — the "(or missing)" clause of
the claim fails on the code. -/
theorem c3_counterexample :
    rawSpotCosts [⟨"fork", CellValue.text "", CellValue.num 100, CellValue.num 50⟩]
      = Except.error (ProjError.malformedNumeric "") := rfl

/-- C3 (amended): a row with `replacementFrequencyYears ≤ 0` contributes zero
cost to every year and is skipped without affecting the rest of the series;
in the raw model such a row returns `ok 0` without raising — the guard
short-circuits before any division or any price coercion, even when the price
cells are themselves malformed. -/
theorem c3_nonpositive_frequency_skipped :
    (∀ p : Part, p.replacementFrequencyYears ≤ 0 →
      (∀ y : ℕ, part_year_cost y p = 0) ∧
      ∀ pre post : List Part, spot_costs (pre ++ p :: post) = spot_costs (pre ++ post)) ∧
    (∀ (rp : RawPart) (q : ℚ), rp.freqCell = CellValue.num q → q ≤ 0 →
      ∀ y : ℕ, rawPartYearCost y rp = Except.ok 0) := by
  constructor
  · intro p hp
    refine ⟨fun y => part_year_cost_nonpos_freq y p hp, fun pre post => ?_⟩
    unfold spot_costs
    apply accrue_congr
    intro y _
    rw [year_cost_insert, part_year_cost_nonpos_freq y p hp, add_zero]
  · intro rp q hq hq0 y
    have hnd : ¬ isDue y q := by
      rintro ⟨h0, -⟩
      exact absurd h0 (not_lt.mpr hq0)
    unfold rawPartYearCost
    rw [hq]
    simp [pyFloat, hnd]

/-- Witness for the amended C3: a zero-frequency row contributes nothing, and
in the raw model it returns `ok 0` even with garbage price cells. -/
theorem c3_witness :
    part_year_cost 1 ⟨"never", 0, 100, 50⟩ = 0 ∧
    rawPartYearCost 1 ⟨"never", CellValue.num 0, CellValue.text "garbage", CellValue.text "?"⟩
      = Except.ok 0 :=
  ⟨(c3_nonpositive_frequency_skipped.1 ⟨"never", 0, 100, 50⟩ (by decide)).1 1,
   c3_nonpositive_frequency_skipped.2
     ⟨"never", CellValue.num 0, CellValue.text "garbage", CellValue.text "?"⟩ 0 rfl
     (by decide) 1⟩

/-- C4: on tables with non-negative prices, removing any one part never
increases `spotTotal`; inserting a part with zero unit price and zero labor
cost changes neither the cumulative series nor `spotTotal`. -/
theorem c4_remove_add_monotone :
    (∀ (pre post : List Part) (p : Part),
      (∀ q ∈ pre ++ p :: post, 0 ≤ q.unitPrice ∧ 0 ≤ q.laborCost) →
      spotTotal (pre ++ post) ≤ spotTotal (pre ++ p :: post)) ∧
    (∀ (pre post : List Part) (z : Part), z.unitPrice = 0 → z.laborCost = 0 →
      spot_costs (pre ++ z :: post) = spot_costs (pre ++ post) ∧
      spotTotal (pre ++ z :: post) = spotTotal (pre ++ post)) := by
  constructor
  · intro pre post p h
    have hp : 0 ≤ p.unitPrice ∧ 0 ≤ p.laborCost := h p (by simp)
    have h1 := part_year_cost_nonneg 1 p hp.1 hp.2
    have h2 := part_year_cost_nonneg 2 p hp.1 hp.2
    have h3 := part_year_cost_nonneg 3 p hp.1 hp.2
    have h4 := part_year_cost_nonneg 4 p hp.1 hp.2
    have h5 := part_year_cost_nonneg 5 p hp.1 hp.2
    unfold spotTotal years
    simp only [List.map_cons, List.map_nil, List.sum_cons, List.sum_nil]
    rw [year_cost_insert pre post p 1, year_cost_insert pre post p 2,
      year_cost_insert pre post p 3, year_cost_insert pre post p 4,
      year_cost_insert pre post p 5]
    linarith
  · intro pre post z hu hl
    have hz : ∀ y : ℕ, year_cost (pre ++ z :: post) y = year_cost (pre ++ post) y := by
      intro y
      rw [year_cost_insert, part_year_cost_zero_price y z hu hl, add_zero]
    constructor
    · unfold spot_costs
      exact accrue_congr _ _ years 0 (fun y _ => hz y)
    · unfold spotTotal
      exact map_sum_congr years _ _ (fun y _ => hz y)

/-- Witness for C4: adding one priced part to the empty table does not
decrease the total, and a zero-priced part leaves the series unchanged. -/
theorem c4_witness :
    spotTotal ([] : List Part) ≤ spotTotal [⟨"battery", 1, 10000, 5000⟩] ∧
    spot_costs [⟨"free", 2, 0, 0⟩] = spot_costs [] :=
  ⟨c4_remove_add_monotone.1 [] [] ⟨"battery", 1, 10000, 5000⟩ (by decide),
   (c4_remove_add_monotone.2 [] [] ⟨"free", 2, 0, 0⟩ rfl rfl).1⟩

/-- C5: for every non-negative risk cost, the risk overlay adds exactly that
amount, exactly once, undiscounted: the overlay sums to the risk cost, is
non-zero in at most the last year, and stacking it on the spot series (the
chart's `base=spot_costs`) raises the final cumulative value to
`spotTotal + riskCost` while leaving years 1-4 of the overlay at zero. -/
theorem c5_risk_added_once (c : ℤ) (parts : List Part) (_hc : 0 ≤ c) :
    (risk_data c).sum = c ∧
    (risk_data c).length = 5 ∧
    (∀ i : ℕ, i < 4 → (risk_data c).getD i 0 = 0) ∧
    (risk_data c).getD 4 0 = c ∧
    (List.zipWith (· + ·) (spot_costs parts) (risk_data c)).getLastD 0
      = spotTotal parts + c := by
  refine ⟨by simp [risk_data], by simp [risk_data], ?_, by simp [risk_data], ?_⟩
  · intro i hi
    interval_cases i <;> simp [risk_data]
  · simp only [spot_costs, spotTotal, years, accrue, risk_data,
      List.zipWith_cons_cons, List.zipWith_nil_right, List.zipWith_nil_left,
      List.getLastD_cons, List.getLastD_nil, List.map_cons, List.map_nil,
      List.sum_cons, List.sum_nil]
    ring

/-- Witness for C5 at the spec's Scenario 4: risk cost 300,000 is added once. -/
theorem c5_witness :
    (risk_data 300000).sum = 300000 ∧
    (List.zipWith (· + ·) (spot_costs []) (risk_data 300000)).getLastD 0
      = spotTotal [] + 300000 := by
  have h := c5_risk_added_once 300000 [] (by decide)
  exact ⟨h.1, h.2.2.2.2⟩

/-- C6: the projection is a pure, deterministic function of the selected
plan's monthly cost, the parts table and the risk table: identical inputs
yield identical contract series, spot series and risk overlay. -/
theorem c6_projection_deterministic (m₁ m₂ : ℤ) (p₁ p₂ : List Part)
    (r₁ r₂ : List RiskCase) (hm : m₁ = m₂) (hp : p₁ = p₂) (hr : r₁ = r₂) :
    runProjection m₁ p₁ r₁ = runProjection m₂ p₂ r₂ := by
  subst hm hp hr
  rfl

/-- Witness for C6: two runs on the same concrete inputs agree. -/
theorem c6_witness :
    runProjection 50000 [⟨"battery", 1, 10000, 5000⟩] [⟨"engine", 300000, "swap"⟩]
      = runProjection 50000 [⟨"battery", 1, 10000, 5000⟩] [⟨"engine", 300000, "swap"⟩] :=
  c6_projection_deterministic 50000 50000 [⟨"battery", 1, 10000, 5000⟩]
    [⟨"battery", 1, 10000, 5000⟩] [⟨"engine", 300000, "swap"⟩]
    [⟨"engine", 300000, "swap"⟩] rfl rfl rfl

/-- C7 counterexample: a non-numeric string in `unitPrice` does not make the
projection fail: with frequency 7 the row is never due within years 1-5, the
`int()` coercions inside the guard never run, and the projection silently
succeeds with an all-zero series instead of raising the typed error the claim
demands for every malformed numeric field. -/
theorem c7_counterexample :
    rawSpotCosts [⟨"rare", CellValue.num 7, CellValue.text "abc", CellValue.num 5⟩]
      = Except.ok [0, 0, 0, 0, 0] := by
  have hnd : ∀ y ∈ years, ¬ isDue y (7 : ℚ) := by
    intro y hy hdue
    have h2 : isIntegerMultiple y 7 ∨ ((7 : ℚ) < 1 ∧ 1 ≤ y) := hdue.2
    rcases h2 with hmul | ⟨hlt, -⟩
    · have hex : ∃ k : ℤ, (y : ℚ) = k * 7 := hmul
      obtain ⟨k, hk⟩ := hex
      have hk2 : (y : ℤ) = k * 7 := by exact_mod_cast hk
      have hy5 : 1 ≤ y ∧ y ≤ 5 := by
        simp [years] at hy
        omega
      omega
    · have : ¬ ((7 : ℚ) < 1) := by simp
      exact this hlt
  have hsk : ∀ y ∈ years,
      rawYearCost y [⟨"rare", CellValue.num 7, CellValue.text "abc", CellValue.num 5⟩]
        = .ok (year_cost (([] : List RawPart).map toPart) y) := by
    intro y hy
    exact rawYearCost_skip y _
      (rawPartYearCost_not_due y _ 7 rfl (hnd y hy)) [] [] (by simp)
  have hmain := rawAccrue_ok_of
    [⟨"rare", CellValue.num 7, CellValue.text "abc", CellValue.num 5⟩]
    (year_cost (([] : List RawPart).map toPart)) years 0 hsk
  unfold rawSpotCosts
  rw [hmain]
  simp [accrue, years, year_cost]

/-- C7 (amended): a non-numeric string in `replacementFrequencyYears` always
fails the projection fast with the typed malformed-numeric error (the
frequency is coerced for every row in every year); a non-numeric string in
`unitPrice` or `laborCost` fails it fast exactly when the row is due in some
year of the horizon — a row never due within years 1-5 is silently skipped
with zero contribution, its price cells never being coerced; no malformed
field is ever coerced to zero; and on fully well-formed tables the projection
never fails and agrees with the typed model. -/
theorem c7_malformed_handling :
    (∀ (pre post : List RawPart) (p : RawPart) (s : String),
      p.freqCell = CellValue.text s →
      ∃ e, rawSpotCosts (pre ++ p :: post) = Except.error e) ∧
    (∀ (pre post : List RawPart) (p : RawPart) (q : ℚ) (s : String) (y : ℕ),
      y ∈ years → isDue y q → p.freqCell = CellValue.num q →
      (p.priceCell = CellValue.text s ∨
        (p.priceCell.isNumCell = true ∧ p.laborCell = CellValue.text s)) →
      ∃ e, rawSpotCosts (pre ++ p :: post) = Except.error e) ∧
    (∀ (pre post : List RawPart) (p : RawPart) (q : ℚ),
      p.freqCell = CellValue.num q → (∀ y ∈ years, ¬ isDue y q) →
      (∀ r ∈ pre ++ post, RawWellFormed r) →
      rawSpotCosts (pre ++ p :: post)
        = Except.ok (spot_costs ((pre ++ post).map toPart))) ∧
    (∀ ps : List RawPart, (∀ p ∈ ps, RawWellFormed p) →
      rawSpotCosts ps = Except.ok (spot_costs (ps.map toPart))) := by
  refine ⟨fun pre post p s h => rawSpotCosts_err pre post p s h, ?_, ?_, ?_⟩
  · intro pre post p q s y hy hd hq hbad
    have herr : ∃ e, rawPartYearCost y p = .error e := by
      rcases hbad with hs | ⟨hnum, hs⟩
      · exact ⟨_, rawPartYearCost_due_badPrice y p q s hq hd hs⟩
      · exact ⟨_, rawPartYearCost_due_badLabor y p q s hq hd hnum hs⟩
    exact rawAccrue_err (pre ++ p :: post) years y hy
      (rawYearCost_err_mem y pre post p herr) 0
  · intro pre post p q hq hnd h
    have hsk : ∀ y ∈ years, rawYearCost y (pre ++ p :: post)
        = .ok (year_cost ((pre ++ post).map toPart) y) := fun y hy =>
      rawYearCost_skip y p (rawPartYearCost_not_due y p q hq (hnd y hy)) pre post h
    unfold rawSpotCosts spot_costs
    exact rawAccrue_ok_of (pre ++ p :: post)
      (year_cost ((pre ++ post).map toPart)) years 0 hsk
  · intro ps h
    unfold rawSpotCosts spot_costs
    exact rawAccrue_wf ps h years 0

/-- Witness for the amended C7: a non-numeric frequency errors; a non-numeric
price on a part due in year 1 errors; a fully numeric table succeeds and
matches the typed projection. -/
theorem c7_witness :
    (∃ e, rawSpotCosts [⟨"pump", CellValue.text "N/A", CellValue.num 100, CellValue.num 50⟩]
      = Except.error e) ∧
    (∃ e, rawSpotCosts [⟨"belt", CellValue.num 1, CellValue.text "abc", CellValue.num 50⟩]
      = Except.error e) ∧
    rawSpotCosts [⟨"belt", CellValue.num 1, CellValue.num 100, CellValue.num 50⟩]
      = Except.ok (spot_costs
          (([⟨"belt", CellValue.num 1, CellValue.num 100, CellValue.num 50⟩] :
            List RawPart).map toPart)) :=
  ⟨c7_malformed_handling.1 [] []
      ⟨"pump", CellValue.text "N/A", CellValue.num 100, CellValue.num 50⟩ "N/A" rfl,
   c7_malformed_handling.2.1 [] []
      ⟨"belt", CellValue.num 1, CellValue.text "abc", CellValue.num 50⟩ 1 "abc" 1
      (by simp [years]) ⟨by decide, Or.inl ⟨1, by simp⟩⟩ rfl (Or.inl rfl),
   c7_malformed_handling.2.2.2
      [⟨"belt", CellValue.num 1, CellValue.num 100, CellValue.num 50⟩]
      (by simp [RawWellFormed, CellValue.isNumCell])⟩

/-- C8: the log writer validates before appending: an empty vehicle id is
rejected with the field-level error message and nothing is appended and no
cache is cleared; a non-empty vehicle id with `cost ≥ 0` (the code's
threshold) forwards the fixed 6-field ordered record and clears the cached
reads. -/
theorem c8_entry_validation (v_id dateStr : String) (cost hours : ℤ)
    (category note : String) :
    (v_id = "" →
      (entry_form v_id dateStr cost hours category note).appendedRecord = none ∧
      (entry_form v_id dateStr cost hours category note).cacheCleared = false ∧
      (entry_form v_id dateStr cost hours category note).errorMessage
        = some "車両IDを入力してください") ∧
    (v_id ≠ "" → 0 ≤ cost →
      (entry_form v_id dateStr cost hours category note).appendedRecord
        = some (entryRecord v_id dateStr cost hours category note) ∧
      (entry_form v_id dateStr cost hours category note).cacheCleared = true ∧
      (entry_form v_id dateStr cost hours category note).errorMessage = none) := by
  constructor
  · intro hv
    have hc : ¬(v_id ≠ "" ∧ 0 ≤ cost) := fun hcon => hcon.1 hv
    unfold entry_form
    rw [if_neg hc]
    exact ⟨rfl, rfl, rfl⟩
  · intro hv hcost
    unfold entry_form
    rw [if_pos ⟨hv, hcost⟩]
    exact ⟨rfl, rfl, rfl⟩

/-- Witness for C8 (the spec's Scenario 5 plus the success path): an empty
vehicle id appends nothing; a well-formed entry appends the ordered record. -/
theorem c8_witness :
    (entry_form "" "2024-01-01" 1000 10 "修理" "").appendedRecord = none ∧
    (entry_form "FL-01" "2024-01-01" 1000 10 "修理" "note").appendedRecord
      = some (entryRecord "FL-01" "2024-01-01" 1000 10 "修理" "note") :=
  ⟨((c8_entry_validation "" "2024-01-01" 1000 10 "修理" "").1 rfl).1,
   ((c8_entry_validation "FL-01" "2024-01-01" 1000 10 "修理" "note").2
      (by decide) (by decide)).1⟩

/-- C9 counterexample: at monthly cost 50000 with no parts and no risk rows,
the value `(spotTotal + riskAddOn) - contractTotal = -3,000,000` the claim
says the calculator produces appears nowhere in the calculation's numeric
output — the code computes no comparison difference (and selects no
message). -/
theorem c9_counterexample :
    difference 50000 [] [] = -3000000 ∧
    difference 50000 [] [] ∉ calcNumericOutputs 50000 [] [] := by
  constructor
  · rfl
  · decide

/-- C9 (amended): the signed difference is fully determined by the numeric
output the code does produce (the contract, spot and risk traces), so its
computation — and the sign-based choice of message — is a presentation
concern outside the calculator: equal displayed outputs force an equal
difference. -/
theorem c9_difference_determined (m₁ m₂ : ℤ) (p₁ p₂ : List Part)
    (r₁ r₂ : List RiskCase)
    (h : calcNumericOutputs m₁ p₁ r₁ = calcNumericOutputs m₂ p₂ r₂) :
    difference m₁ p₁ r₁ = difference m₂ p₂ r₂ := by
  unfold calcNumericOutputs at h
  rw [List.append_assoc, List.append_assoc] at h
  have hlc : (contract_costs m₁).length = (contract_costs m₂).length := by
    simp [contract_costs]
  obtain ⟨hc, h2⟩ := List.append_inj h hlc
  have hls : (spot_costs p₁).length = (spot_costs p₂).length := by
    simp [spot_costs, years, accrue]
  obtain ⟨hs, hr⟩ := List.append_inj h2 hls
  have key : ∀ (m : ℤ) (p : List Part) (r : List RiskCase),
      difference m p r
        = (spot_costs p).getLastD 0 + (riskSeries r).sum - (contract_costs m).getLastD 0 := by
    intro m p r
    unfold difference contractTotal riskAddOn
    rw [spot_costs_getLastD]
  rw [key, key, hc, hs, hr]

/-- Witness for C9 (amended) at concrete equal inputs. -/
theorem c9_witness :
    difference 50000 [] [⟨"engine", 300000, "swap"⟩]
      = difference 50000 [] [⟨"engine", 300000, "swap"⟩] :=
  c9_difference_determined 50000 50000 [] [] [⟨"engine", 300000, "swap"⟩]
    [⟨"engine", 300000, "swap"⟩] rfl

/-- C10: with a non-empty risk table the overlay uses the maximum estimated
repair cost over all rows, the displayed name is that of a row attaining the
maximum (the first such row), the overlay is zero in years 1-4 and carries
the maximum only in year 5; with an empty risk table no overlay is added. -/
theorem c10_risk_overlay (rs : List RiskCase) :
    (rs = [] → risk_section rs = none) ∧
    (rs ≠ [] →
      risk_section rs = some (risk_data (max_risk_cost rs), risk_name rs) ∧
      (∀ r ∈ rs, r.estimatedRepairCost ≤ max_risk_cost rs) ∧
      (∃ r ∈ rs, r.estimatedRepairCost = max_risk_cost rs ∧
        risk_name rs = r.failureName) ∧
      riskSeries rs = risk_data (max_risk_cost rs) ∧
      (∀ i : ℕ, i < 4 → (riskSeries rs).getD i 0 = 0) ∧
      (riskSeries rs).getD 4 0 = max_risk_cost rs) := by
  constructor
  · intro h
    subst h
    rfl
  · intro h
    have hne : ¬ rs.isEmpty := by
      cases rs with
      | nil => exact absurd rfl h
      | cons x xs => simp
    have hsec : risk_section rs = some (risk_data (max_risk_cost rs), risk_name rs) := by
      unfold risk_section
      rw [if_neg hne]
    have hser : riskSeries rs = risk_data (max_risk_cost rs) := by
      unfold riskSeries
      rw [hsec]
    refine ⟨hsec, fun r hr => max_risk_cost_le rs r hr, risk_name_attains rs h, hser, ?_, ?_⟩
    · intro i hi
      rw [hser]
      interval_cases i <;> simp [risk_data]
    · rw [hser]
      simp [risk_data]

/-- Witness for C10 at a concrete two-row risk table. -/
theorem c10_witness :
    risk_section [⟨"tire", 100000, "flat"⟩, ⟨"engine", 300000, "swap"⟩]
      = some (risk_data (max_risk_cost
            [⟨"tire", 100000, "flat"⟩, ⟨"engine", 300000, "swap"⟩]),
          risk_name [⟨"tire", 100000, "flat"⟩, ⟨"engine", 300000, "swap"⟩]) ∧
    risk_section ([] : List RiskCase) = none :=
  ⟨((c10_risk_overlay [⟨"tire", 100000, "flat"⟩, ⟨"engine", 300000, "swap"⟩]).2
      (List.cons_ne_nil _ _)).1,
   (c10_risk_overlay ([] : List RiskCase)).1 rfl⟩

end Forklift
